import Mathlib

/-!
Verification of the time-tracker core (Tauri + React time tracking app).

The repository's frontend (TypeScript, under `src/`) is embedded directly;
the Rust backend (`src-tauri/src/lib.rs`, holding the Entry Store, Timer,
Overlap Detector and Invoice Aggregator) is not present in the source tree,
so those operations are modelled from the specification's own words.
Times are integer Unix seconds (`Int`), monetary rates and amounts are exact
rationals (`ℚ`).
-/

/-- A completed time entry, mirroring `TimeEntry` in `src/types/time-entry.ts`
(fields: id, projectName, startTime, endTime, duration, hourlyRate, amount). -/
structure TimeEntry where
  id : Int
  projectName : String
  startTime : Int
  endTime : Int
  duration : Int
  hourlyRate : ℚ
  amount : ℚ
deriving DecidableEq

/-- An invoice row, mirroring `Invoice` in `src/types/time-entry.ts` together
with the spec's persisted schema (`period_start`, `period_end` columns). -/
structure Invoice where
  id : Int
  createdAt : Int
  periodStart : Int
  periodEnd : Int
  businessInfo : String
  billToInfo : String
  totalHours : ℚ
  totalAmount : ℚ
  entryCount : Nat
  filePath : String
deriving DecidableEq

/-- Error taxonomy of the spec (§7). -/
inductive StoreError where
  | invalidInput
  | invalidRange
  | notFound
  | alreadyRunning
deriving DecidableEq

/-- Timer state machine: `Idle` or `Running {projectName, hourlyRate, startTime}`. -/
inductive TimerState where
  | idle
  | running (projectName : String) (hourlyRate : ℚ) (startTime : Int)
deriving DecidableEq

/-- The entry table plus the store-assigned id counter. -/
structure EntryStore where
  entries : List TimeEntry
  nextId : Int
deriving DecidableEq

/-- String trimming as JS `.trim()` / Rust `str::trim` perform it: strip
whitespace from both ends (structurally recursive so proofs can evaluate it). -/
def jsTrim (s : String) : String :=
  String.mk (((s.data.dropWhile Char.isWhitespace).reverse.dropWhile Char.isWhitespace).reverse)

/-- Modelled from the spec: the derived `amount` field,
`amount == duration/3600 * hourlyRate` (exact rational arithmetic);
the computation itself lives in the missing Rust backend. -/
def amountOf (duration : Int) (hourlyRate : ℚ) : ℚ :=
  (duration : ℚ) / 3600 * hourlyRate

/-- Modelled from the spec: the Overlap Detector of the missing Rust backend.
Given a candidate `(startTime, endTime, excludeId?)`, returns every stored
entry `e` (other than `excludeId`) with
`e.startTime < endTime AND e.endTime > startTime`. -/
def findOverlapping (store : EntryStore) (startTime endTime : Int)
    (excludeId : Option Int) : List TimeEntry :=
  store.entries.filter (fun e =>
    excludeId.all (fun i => e.id != i) &&
    decide (e.startTime < endTime) && decide (e.endTime > startTime))

/-- Modelled from the spec: Entry Store `create` of the missing Rust backend.
Fails `InvalidRange` if `endTime <= startTime`; fails `InvalidInput` if the
project name is empty after trim or `hourlyRate < 0`; otherwise inserts a
fully derived entry. On failure the store is returned unchanged. -/
def EntryStore.create (store : EntryStore) (projectName : String)
    (startTime endTime : Int) (hourlyRate : ℚ) :
    (Except StoreError TimeEntry) × EntryStore :=
  if endTime ≤ startTime then (.error .invalidRange, store)
  else if jsTrim projectName = "" ∨ hourlyRate < 0 then (.error .invalidInput, store)
  else
    let duration := endTime - startTime
    let entry : TimeEntry :=
      { id := store.nextId, projectName := jsTrim projectName,
        startTime := startTime, endTime := endTime, duration := duration,
        hourlyRate := hourlyRate, amount := amountOf duration hourlyRate }
    (.ok entry, { entries := store.entries ++ [entry], nextId := store.nextId + 1 })

/-- Result of `update`: the persisted entry plus the overlap advisory
(`overlap_warning.overlapping_entries` on the wire). -/
structure UpdateResult where
  entry : TimeEntry
  overlapWarning : List TimeEntry
deriving DecidableEq

/-- Modelled from the spec: Entry Store `update` of the missing Rust backend.
Recomputes `endTime = startTime + durationSeconds` (startTime immutable);
fails `NotFound` if the id is absent, `InvalidInput` if
`durationSeconds <= 0` or the name trims to empty; overlap against other
entries is reported as an advisory and never blocks the save. On failure the
store is returned unchanged. -/
def EntryStore.update (store : EntryStore) (id : Int) (projectName : String)
    (hourlyRate : ℚ) (durationSeconds : Int) :
    (Except StoreError UpdateResult) × EntryStore :=
  match store.entries.find? (fun e => e.id == id) with
  | none => (.error .notFound, store)
  | some old =>
    if durationSeconds ≤ 0 ∨ jsTrim projectName = "" then (.error .invalidInput, store)
    else
      let newEnd := old.startTime + durationSeconds
      let updated : TimeEntry :=
        { id := old.id, projectName := jsTrim projectName,
          startTime := old.startTime, endTime := newEnd,
          duration := durationSeconds, hourlyRate := hourlyRate,
          amount := amountOf durationSeconds hourlyRate }
      let warning := findOverlapping store old.startTime newEnd (some id)
      (.ok { entry := updated, overlapWarning := warning },
       { store with entries := store.entries.map (fun e => if e.id == id then updated else e) })

/-- Modelled from the spec: Entry Store `delete` of the missing Rust backend.
Fails `NotFound` if absent; otherwise unconditional removal. -/
def EntryStore.deleteEntry (store : EntryStore) (id : Int) :
    (Except StoreError Unit) × EntryStore :=
  if store.entries.any (fun e => e.id == id) then
    (.ok (), { store with entries := store.entries.filter (fun e => e.id != id) })
  else (.error .notFound, store)

/-- Modelled from the spec: `listForRange` of the missing Rust backend. Returns
entries whose `[startTime, endTime)` intersects the queried `[a, b)`, ordered
by `startTime` ascending. -/
def EntryStore.listForRange (store : EntryStore) (a b : Int) : List TimeEntry :=
  List.insertionSort (fun x y => x.startTime ≤ y.startTime)
    (store.entries.filter (fun e => decide (e.startTime < b) && decide (e.endTime > a)))

/-- Modelled from the spec: `totalsForRange`, a pure aggregation over
`listForRange`. -/
def EntryStore.totalsForRange (store : EntryStore) (a b : Int) : Int × ℚ :=
  (((store.listForRange a b).map (fun e => e.duration)).sum,
   ((store.listForRange a b).map (fun e => e.amount)).sum)

/-- Whole-core state: the singleton timer record, the entry table, and the
invoice table with its id counter. -/
structure AppState where
  timer : TimerState
  store : EntryStore
  invoices : List Invoice
  nextInvoiceId : Int
deriving DecidableEq

/-- Modelled from the spec: the backend `start_timer` command. Fails
`InvalidInput` if the name trims to empty or the rate is negative; fails
`AlreadyRunning` while a timer is active (never a silent overwrite);
otherwise persists `Running{projectName, hourlyRate, startTime=now}`.
On failure the state is returned unchanged. -/
def AppState.startTimer (s : AppState) (projectName : String) (hourlyRate : ℚ)
    (now : Int) : (Except StoreError TimerState) × AppState :=
  if jsTrim projectName = "" ∨ hourlyRate < 0 then (.error .invalidInput, s)
  else
    match s.timer with
    | .running _ _ _ => (.error .alreadyRunning, s)
    | .idle =>
      let t := TimerState.running (jsTrim projectName) hourlyRate now
      (.ok t, { s with timer := t })

/-- Modelled from the spec: the backend `stop_timer` command. On `Idle` it
returns null and performs no mutation; on `Running` it materializes an entry
when the truncated duration is at least one second, and transitions to
`Idle` either way. -/
def AppState.stopTimer (s : AppState) (now : Int) :
    (Except StoreError (Option TimeEntry)) × AppState :=
  match s.timer with
  | .idle => (.ok none, s)
  | .running projectName hourlyRate startTime =>
    if 0 < now - startTime then
      match s.store.create projectName startTime now hourlyRate with
      | (.ok e, st) => (.ok (some e), { s with timer := .idle, store := st })
      | (.error err, _) => (.error err, s)
    else
      (.ok none, { s with timer := .idle })

/-- The backend `update_time_entry` command: delegates to the Entry Store,
leaving timer and invoices untouched. -/
def AppState.updateTimeEntry (s : AppState) (id : Int) (projectName : String)
    (hourlyRate : ℚ) (durationSeconds : Int) :
    (Except StoreError UpdateResult) × AppState :=
  let r := s.store.update id projectName hourlyRate durationSeconds
  (r.1, { s with store := r.2 })

/-- The backend `delete_time_entry` command: delegates to the Entry Store,
leaving timer and invoices untouched. -/
def AppState.deleteTimeEntry (s : AppState) (id : Int) :
    (Except StoreError Unit) × AppState :=
  let r := s.store.deleteEntry id
  (r.1, { s with store := r.2 })

/-- Modelled from the spec: the backend `save_invoice` command (Invoice
Aggregator `generate`). Fails `InvalidRange` if `periodEnd < periodStart`
and then produces nothing; otherwise sums duration and amount over exactly
`listForRange(periodStart, periodEnd)` and appends a frozen Invoice row. -/
def AppState.saveInvoice (s : AppState) (periodStart periodEnd : Int)
    (businessInfo billToInfo : String) (now : Int) (filePath : String) :
    (Except StoreError Invoice) × AppState :=
  if periodEnd < periodStart then (.error .invalidRange, s)
  else
    let es := s.store.listForRange periodStart periodEnd
    let totalSeconds : Int := (es.map (fun e => e.duration)).sum
    let inv : Invoice :=
      { id := s.nextInvoiceId, createdAt := now,
        periodStart := periodStart, periodEnd := periodEnd,
        businessInfo := businessInfo, billToInfo := billToInfo,
        totalHours := (totalSeconds : ℚ) / 3600,
        totalAmount := (es.map (fun e => e.amount)).sum,
        entryCount := es.length, filePath := filePath }
    (.ok inv, { s with invoices := s.invoices ++ [inv], nextInvoiceId := s.nextInvoiceId + 1 })

def digitsToNat (cs : List Char) : Nat :=
  cs.foldl (fun a c => a * 10 + (c.toNat - 48)) 0

/-- `parseInt(s) || 0` as executed on the dialog's digit-only input fields
(the `onChange` handlers strip every non-digit): the value of the longest
leading digit run, with the empty/`NaN` case falling back to `0`. -/
def parseIntOr0 (s : String) : Nat :=
  let ds := s.data.takeWhile Char.isDigit
  if ds.isEmpty then 0 else digitsToNat ds

/-- `totalSeconds` of `EditEntryModal.handleSave`
(`src/components/EditEntryModal.tsx`):
`parsedHours * 3600 + parsedMinutes * 60`. -/
def editTotalSeconds (hours minutes : String) : Nat :=
  parseIntOr0 hours * 3600 + parseIntOr0 minutes * 60

/-- The duration decision of `EditEntryModal.handleSave`: `none` when the
dialog rejects (`totalSeconds <= 0`, no `onSave` call), otherwise the
`durationSeconds` value passed to `onSave`. -/
def editHandleSave (hours minutes : String) : Option Nat :=
  let totalSeconds := editTotalSeconds hours minutes
  if totalSeconds ≤ 0 then none else some totalSeconds

/-- `calculatedEndTime` of `EditEntryModal`
(`entry.startTime + (parseInt(hours) || 0) * 3600 + (parseInt(minutes) || 0) * 60`). -/
def calculatedEndTime (entryStart : Int) (hours minutes : String) : Int :=
  entryStart + (parseIntOr0 hours : Int) * 3600 + (parseIntOr0 minutes : Int) * 60

/-- Outcome of the frontend `startTimer` callback in
`src/hooks/useTimeTracker.ts`: silent early return, a local error message
with no backend call, or an `invoke("start_timer", ...)`. -/
inductive FrontendStartAction where
  | noop
  | localError (msg : String)
  | invokeStart (projectName : String) (hourlyRate : ℚ)
deriving DecidableEq

/-- The guard logic of the frontend `startTimer` callback: early return when
already running or the name trims to empty; local error when the rate fails
to parse or is negative; otherwise the backend is invoked. `parsedRate` is
the result of `resolveHourlyRate` (`none` when `Number(trimmed)` is `NaN`). -/
def frontendStartTimer (isRunning : Bool) (projectName : String)
    (parsedRate : Option ℚ) : FrontendStartAction :=
  if isRunning || jsTrim projectName == "" then .noop
  else
    match parsedRate with
    | none => .localError "Hourly rate must be a valid number."
    | some r =>
      if r < 0 then .localError "Hourly rate cannot be negative."
      else .invokeStart projectName r

/-- The guard of the frontend `stopTimer` callback: `invoke("stop_timer")`
happens only when `isRunning` is true. -/
def frontendStopInvokes (isRunning : Bool) : Bool :=
  isRunning

/-! ### Concrete fixtures used by the witnesses (spec §8 scenarios) -/

/-- Stored entry `{start:0, end:3600, rate:50}` (spec §8 scenario). -/
def entry1 : TimeEntry :=
  { id := 1, projectName := "Alpha", startTime := 0, endTime := 3600,
    duration := 3600, hourlyRate := 50, amount := 50 }

/-- Stored entry `{start:1800, end:5400, rate:50}` (spec §8 scenario). -/
def entry2 : TimeEntry :=
  { id := 2, projectName := "Beta", startTime := 1800, endTime := 5400,
    duration := 3600, hourlyRate := 50, amount := 50 }

/-- A store holding the two overlapping scenario entries. -/
def store0 : EntryStore := { entries := [entry1, entry2], nextId := 3 }

/-- Idle whole-core state over `store0` with no invoices. -/
def app0 : AppState :=
  { timer := .idle, store := store0, invoices := [], nextInvoiceId := 1 }

/-- The entry produced by re-saving `entry2` with duration 3600. -/
def c2entry : TimeEntry :=
  { id := 2, projectName := "Beta", startTime := 1800, endTime := 5400,
    duration := 3600, hourlyRate := 50, amount := amountOf 3600 50 }

/-- Expected result of `update_time_entry(2, "Beta", 50, 3600)` over `app0`. -/
def c2res : UpdateResult := { entry := c2entry, overlapWarning := [entry1] }

/-- Expected state after `update_time_entry(2, "Beta", 50, 3600)` over `app0`. -/
def c2state : AppState :=
  { timer := .idle, store := { entries := [entry1, c2entry], nextId := 3 },
    invoices := [], nextInvoiceId := 1 }

/-- Entry created by `create("Alpha", 1000, 4600, 60)` (spec §8 scenario). -/
def c1entry : TimeEntry :=
  { id := 1, projectName := "Alpha", startTime := 1000, endTime := 4600,
    duration := 3600, hourlyRate := 60, amount := amountOf 3600 60 }

/-- An empty entry store. -/
def emptyStore : EntryStore := { entries := [], nextId := 1 }

/-- Invoice generated over `app0` for `[0, 86400)` (spec §8 scenario:
7200 seconds at 50/h → 2 hours, amount 100, two entries). -/
def c5inv : Invoice :=
  { id := 1, createdAt := 1000, periodStart := 0, periodEnd := 86400,
    businessInfo := "biz", billToInfo := "client",
    totalHours := ((((app0.store.listForRange 0 86400).map (fun e => e.duration)).sum : Int) : ℚ) / 3600,
    totalAmount := ((app0.store.listForRange 0 86400).map (fun e => e.amount)).sum,
    entryCount := 2, filePath := "inv.pdf" }

/-- State after generating `c5inv` from `app0`. -/
def c5state : AppState :=
  { app0 with invoices := [c5inv], nextInvoiceId := 2 }

/-- `app0` with a running timer (`Alpha`, rate 50, started at 100). -/
def appRun : AppState := { app0 with timer := .running "Alpha" 50 100 }

/-- Stored entry `[0,100)` for the touching-endpoint example. -/
def entryTouch : TimeEntry :=
  { id := 1, projectName := "T", startTime := 0, endTime := 100,
    duration := 100, hourlyRate := 0, amount := 0 }

/-- Stored entry `[0,101)` for the strict-overlap example. -/
def entryOver : TimeEntry :=
  { id := 1, projectName := "O", startTime := 0, endTime := 101,
    duration := 101, hourlyRate := 0, amount := 0 }

/-- Store holding only `entryTouch`. -/
def touchStore : EntryStore := { entries := [entryTouch], nextId := 2 }

/-- Store holding only `entryOver`. -/
def overStore : EntryStore := { entries := [entryOver], nextId := 2 }

/-! ### Claim theorems -/

/-- C10: `EditEntryModal.handleSave` either rejects without calling `onSave`
(exactly when the parsed `hours*3600 + minutes*60` is not positive) or calls
`onSave` with `durationSeconds = parsedHours*3600 + parsedMinutes*60`, which
is always a positive multiple of 60 — no edit through the dialog can carry
sub-minute precision. -/
theorem edit_modal_minute_granularity (hs ms : String) :
    (editHandleSave hs ms = none → editTotalSeconds hs ms = 0) ∧
    (∀ d, editHandleSave hs ms = some d →
      d = parseIntOr0 hs * 3600 + parseIntOr0 ms * 60 ∧ 0 < d ∧ 60 ∣ d) := by
  unfold editHandleSave
  constructor
  · intro h
    by_cases h0 : editTotalSeconds hs ms ≤ 0
    · omega
    · simp [h0] at h
  · intro d hd
    by_cases h0 : editTotalSeconds hs ms ≤ 0
    · simp [h0] at hd
    · simp only [h0, if_neg, if_false, Option.some.injEq] at hd
      subst hd
      refine ⟨rfl, by omega, ?_⟩
      unfold editTotalSeconds
      omega

/-- Witness for C10: with `hours = "1"`, `minutes = "30"` the dialog calls
`onSave` with 5400 seconds, a positive multiple of 60. -/
theorem edit_modal_minute_granularity_witness :
    5400 = parseIntOr0 "1" * 3600 + parseIntOr0 "30" * 60 ∧
    0 < 5400 ∧ 60 ∣ 5400 :=
  (edit_modal_minute_granularity "1" "30").2 5400 (by rfl)

/-- C3: the Overlap Detector returns exactly the stored entries `e` (other
than `excludeId`) with `e.startTime < endTime` and `e.endTime > startTime`;
touching endpoints are not a conflict, so `[0,100)` does not overlap the
candidate `[100,200)` while `[0,101)` does. -/
theorem overlap_detector_exact (store : EntryStore) (a b : Int)
    (excl : Option Int) (e : TimeEntry) :
    (e ∈ findOverlapping store a b excl ↔
      e ∈ store.entries ∧ (∀ i, excl = some i → e.id ≠ i) ∧
      e.startTime < b ∧ e.endTime > a) ∧
    findOverlapping touchStore 100 200 none = [] ∧
    findOverlapping overStore 100 200 none = [entryOver] := by
  refine ⟨?_, by rfl, by rfl⟩
  unfold findOverlapping
  rw [List.mem_filter]
  cases excl with
  | none => simp [Option.all]
  | some j =>
    simp only [Option.all, Bool.and_eq_true, decide_eq_true_eq, bne_iff_ne,
      Option.some.injEq, and_congr_right_iff]
    intro _
    constructor
    · rintro ⟨⟨hne, h1⟩, h2⟩
      exact ⟨fun i hi => hi ▸ hne, h1, h2⟩
    · rintro ⟨hall, h1, h2⟩
      exact ⟨⟨hall j rfl, h1⟩, h2⟩

/-- Witness for C3: `[0,101)` is returned for the candidate `[100,200)`, and
the store holding only `[0,100)` yields no overlap for that candidate. -/
theorem overlap_detector_exact_witness :
    entryOver ∈ findOverlapping overStore 100 200 none ∧
    findOverlapping touchStore 100 200 none = [] :=
  ⟨((overlap_detector_exact overStore 100 200 none entryOver).1).mpr
    ⟨by simp [overStore], by simp, by decide, by decide⟩,
   (overlap_detector_exact touchStore 100 200 none entryTouch).2.1⟩

/-- C1: after a successful `create` and after a successful `update`, the
persisted entry satisfies `duration = endTime - startTime` and
`amount = duration/3600 * hourlyRate` (amount recomputed from the new
duration and rate on every edit); and the dialog's `calculatedEndTime`
agrees with `startTime + durationSeconds` for every saved edit. -/
theorem entry_derived_fields_invariant (st : EntryStore) (name : String)
    (a b : Int) (rate : ℚ) (id d : Int) (name2 : String) (rate2 : ℚ)
    (t0 : Int) (hs ms : String) :
    (∀ e st', st.create name a b rate = (Except.ok e, st') →
      e.duration = e.endTime - e.startTime ∧
      e.amount = (e.duration : ℚ) / 3600 * e.hourlyRate) ∧
    (∀ r st', st.update id name2 rate2 d = (Except.ok r, st') →
      r.entry.duration = r.entry.endTime - r.entry.startTime ∧
      r.entry.amount = (r.entry.duration : ℚ) / 3600 * r.entry.hourlyRate) ∧
    (∀ dsec, editHandleSave hs ms = some dsec →
      calculatedEndTime t0 hs ms = t0 + (dsec : Int)) := by
  refine ⟨?_, ?_, ?_⟩
  · intro e st' h
    unfold EntryStore.create at h
    by_cases h1 : b ≤ a
    · simp [h1] at h
    · by_cases h2 : jsTrim name = "" ∨ rate < 0
      · simp [h1, h2] at h
      · simp only [h1, h2, if_false, Prod.mk.injEq, Except.ok.injEq] at h
        obtain ⟨he, -⟩ := h
        subst he
        exact ⟨by simp, by simp [amountOf]⟩
  · intro r st' h
    unfold EntryStore.update at h
    cases hf : st.entries.find? (fun e => e.id == id) with
    | none => rw [hf] at h; simp at h
    | some old =>
      rw [hf] at h
      by_cases h2 : d ≤ 0 ∨ jsTrim name2 = ""
      · simp [h2] at h
      · simp only [h2, if_false, Prod.mk.injEq, Except.ok.injEq] at h
        obtain ⟨he, -⟩ := h
        subst he
        refine ⟨by simp, by simp [amountOf]⟩
  · intro dsec h
    unfold editHandleSave at h
    by_cases h0 : editTotalSeconds hs ms ≤ 0
    · simp [h0] at h
    · simp only [h0, if_neg, if_false, Option.some.injEq] at h
      subst h
      unfold calculatedEndTime editTotalSeconds
      push_cast
      ring

/-- Witness for C1: `create("Alpha", 1000, 4600, 60)` on the empty store
yields `c1entry` with `duration = 3600 = endTime - startTime` and
`amount = duration/3600 * rate`. -/
theorem entry_derived_fields_invariant_witness :
    c1entry.duration = c1entry.endTime - c1entry.startTime ∧
    c1entry.amount = (c1entry.duration : ℚ) / 3600 * c1entry.hourlyRate :=
  (entry_derived_fields_invariant emptyStore "Alpha" 1000 4600 60 1 1 "x" 0 0 "1" "30").1
    c1entry { entries := [c1entry], nextId := 2 } (by rfl)

/-- C2: an `update_time_entry` whose new range `[startTime, startTime + d)`
intersects another stored entry still persists the new values (the save is
not blocked) and returns a non-empty overlap warning; overlap is an advisory
on a successful result, not an error. -/
theorem update_overlap_advisory (s : AppState) (id : Int) (name : String)
    (rate : ℚ) (d : Int) (r : UpdateResult) (s' : AppState) (old e : TimeEntry)
    (hfind : s.store.entries.find? (fun x => x.id == id) = some old)
    (hok : s.updateTimeEntry id name rate d = (Except.ok r, s'))
    (he : e ∈ s.store.entries) (hne : e.id ≠ id)
    (hlt : e.startTime < old.startTime + d) (hgt : e.endTime > old.startTime) :
    r.overlapWarning ≠ [] ∧
    r.entry ∈ s'.store.entries ∧
    r.entry.duration = d ∧
    r.entry.endTime = old.startTime + d ∧
    r.entry.projectName = jsTrim name ∧
    r.entry.hourlyRate = rate := by
  unfold AppState.updateTimeEntry at hok
  unfold EntryStore.update at hok
  rw [hfind] at hok
  by_cases h2 : d ≤ 0 ∨ jsTrim name = ""
  · simp [h2] at hok
  · simp only [h2, if_false, Prod.mk.injEq, Except.ok.injEq] at hok
    obtain ⟨hr, hs'⟩ := hok
    subst hr
    have hmem : e ∈ findOverlapping s.store old.startTime (old.startTime + d) (some id) := by
      unfold findOverlapping
      rw [List.mem_filter]
      refine ⟨he, ?_⟩
      simp [Option.all, hne, hlt, hgt]
    refine ⟨List.ne_nil_of_mem hmem, ?_, rfl, rfl, rfl, rfl⟩
    have hwold := List.find?_some hfind
    have holdmem : old ∈ s.store.entries := List.mem_of_find?_eq_some hfind
    have : s'.store.entries =
        s.store.entries.map (fun x => if x.id == id then
          { id := old.id, projectName := jsTrim name, startTime := old.startTime,
            endTime := old.startTime + d, duration := d, hourlyRate := rate,
            amount := amountOf d rate } else x) := by
      rw [← hs']
    rw [this]
    have := List.mem_map_of_mem (f := fun x => if x.id == id then
      { id := old.id, projectName := jsTrim name, startTime := old.startTime,
        endTime := old.startTime + d, duration := d, hourlyRate := rate,
        amount := amountOf d rate : TimeEntry } else x) holdmem
    simpa [hwold] using this

/-- Witness for C2 (spec §8 scenario): re-saving entry 2 of `store0` with
duration 3600 keeps the new values and reports entry 1 as overlapping. -/
theorem update_overlap_advisory_witness :
    c2res.overlapWarning ≠ [] ∧ c2res.entry ∈ c2state.store.entries :=
  have h := update_overlap_advisory app0 2 "Beta" 50 3600 c2res c2state entry2 entry1
    (by rfl) (by rfl) (by simp [app0, store0]) (by decide) (by decide) (by decide)
  ⟨h.1, h.2.1⟩

/-- C4: while the timer is `Running`, `start` is rejected without touching
the running record — the state (hence `startTime` and `projectName`) is
unchanged, the result is an error (no `Running → Running` transition), and
the frontend `startTimer` callback does not even invoke the backend while
`isRunning` is true. -/
theorem start_while_running_rejected (s : AppState) (name : String)
    (rate : ℚ) (now : Int) (p : String) (r0 : ℚ) (t0 : Int)
    (pr : Option ℚ) (h : s.timer = TimerState.running p r0 t0) :
    (s.startTimer name rate now).2 = s ∧
    (∃ err, (s.startTimer name rate now).1 = Except.error err) ∧
    frontendStartTimer true name pr = FrontendStartAction.noop := by
  unfold AppState.startTimer
  by_cases h1 : jsTrim name = "" ∨ rate < 0
  · exact ⟨by simp [h1], ⟨.invalidInput, by simp [h1]⟩, by simp [frontendStartTimer]⟩
  · rw [h]
    exact ⟨by simp [h1], ⟨.alreadyRunning, by simp [h1]⟩, by simp [frontendStartTimer]⟩

/-- Witness for C4: with a running timer (`Alpha`, 50, started at 100),
starting `"X"` leaves the state untouched and the frontend callback no-ops. -/
theorem start_while_running_rejected_witness :
    (appRun.startTimer "X" 5 200).2 = appRun ∧
    frontendStartTimer true "X" none = FrontendStartAction.noop :=
  have h := start_while_running_rejected appRun "X" 5 200 "Alpha" 50 100 none (by rfl)
  ⟨h.1, h.2.2⟩

/-- C7: `start(projectName, hourlyRate)` fails with `InvalidInput` when the
name trims to empty or the rate is negative, leaving the whole state (timer
and stores) unchanged; the frontend additionally refuses to invoke the
backend for a negative parsed rate. -/
theorem start_rejects_invalid_input (s : AppState) (name : String)
    (rate : ℚ) (now : Int) (h : jsTrim name = "" ∨ rate < 0) :
    s.startTimer name rate now = (Except.error StoreError.invalidInput, s) ∧
    (∀ (name2 : String) (q : ℚ), q < 0 → jsTrim name2 ≠ "" →
      frontendStartTimer false name2 (some q) =
        FrontendStartAction.localError "Hourly rate cannot be negative.") := by
  constructor
  · unfold AppState.startTimer
    rw [if_pos h]
  · intro name2 q hq hne
    unfold frontendStartTimer
    simp [hne, hq]

/-- Witness for C7: starting with an empty name fails with `InvalidInput`
and changes nothing; the frontend rejects rate `-1` locally. -/
theorem start_rejects_invalid_input_witness :
    app0.startTimer "" 50 100 = (Except.error StoreError.invalidInput, app0) ∧
    frontendStartTimer false "Alpha" (some (-1)) =
      FrontendStartAction.localError "Hourly rate cannot be negative." :=
  have h := start_rejects_invalid_input app0 "" 50 100 (Or.inl rfl)
  ⟨h.1, h.2 "Alpha" (-1) (by norm_num) (by decide)⟩

/-- C8: `stop()` on an `Idle` timer is benign and idempotent: it returns
null, the whole state (entries included) is unchanged, the timer stays
`Idle`, and the frontend `stopTimer` callback does not invoke the backend
when `isRunning` is false. -/
theorem stop_on_idle_noop (s : AppState) (now : Int)
    (h : s.timer = TimerState.idle) :
    s.stopTimer now = (Except.ok none, s) ∧
    (s.stopTimer now).2.timer = TimerState.idle ∧
    frontendStopInvokes false = false := by
  have h1 : s.stopTimer now = (Except.ok none, s) := by
    unfold AppState.stopTimer
    rw [h]
  exact ⟨h1, by rw [h1]; exact h, rfl⟩

/-- Witness for C8: stopping the idle `app0` returns null and leaves the
state exactly as it was. -/
theorem stop_on_idle_noop_witness :
    app0.stopTimer 500 = (Except.ok none, app0) :=
  (stop_on_idle_noop app0 500 (by rfl)).1

/-- C9: invoice generation fails with `InvalidRange` when
`periodEnd < periodStart`, and no Invoice row is produced — the invoice
table (and the whole state) is unchanged. -/
theorem save_invoice_rejects_invalid_range (s : AppState) (a b : Int)
    (bi cp : String) (now : Int) (fp : String) (h : b < a) :
    s.saveInvoice a b bi cp now fp = (Except.error StoreError.invalidRange, s) ∧
    (s.saveInvoice a b bi cp now fp).2.invoices = s.invoices := by
  have h1 : s.saveInvoice a b bi cp now fp = (Except.error StoreError.invalidRange, s) := by
    unfold AppState.saveInvoice
    rw [if_pos h]
  exact ⟨h1, by rw [h1]⟩

/-- Witness for C9: generating over the reversed window `(100, 0)` fails
with `InvalidRange` and leaves `app0` untouched. -/
theorem save_invoice_rejects_invalid_range_witness :
    app0.saveInvoice 100 0 "b" "c" 1 "f" =
      (Except.error StoreError.invalidRange, app0) :=
  (save_invoice_rejects_invalid_range app0 100 0 "b" "c" 1 "f" (by decide)).1

/-- C6: `update` fails with `InvalidInput` when `durationSeconds <= 0` or the
project name is empty after trimming, and on that failure no entry field is
modified (the store comes back exactly as it was); the edit dialog likewise
refuses to call `onSave` when its computed duration is zero. -/
theorem update_rejects_invalid_input (st : EntryStore) (id : Int)
    (name : String) (rate : ℚ) (d : Int) (old : TimeEntry)
    (hfind : st.entries.find? (fun x => x.id == id) = some old)
    (h : d ≤ 0 ∨ jsTrim name = "") :
    st.update id name rate d = (Except.error StoreError.invalidInput, st) ∧
    (∀ hs ms, editTotalSeconds hs ms = 0 → editHandleSave hs ms = none) := by
  constructor
  · unfold EntryStore.update
    rw [hfind]
    dsimp only
    rw [if_pos h]
  · intro hs ms h0
    unfold editHandleSave
    simp [h0]

/-- Witness for C6: updating entry 1 of `store0` with duration 0 fails with
`InvalidInput` and leaves the store unchanged; the dialog rejects
`hours = "0", minutes = "0"`. -/
theorem update_rejects_invalid_input_witness :
    store0.update 1 "Alpha" 50 0 = (Except.error StoreError.invalidInput, store0) ∧
    editHandleSave "0" "0" = none :=
  have h := update_rejects_invalid_input store0 1 "Alpha" 50 0 entry1
    (by rfl) (Or.inl (by decide))
  ⟨h.1, h.2 "0" "0" (by rfl)⟩

/-- C5: a generated invoice's totals equal the sums of `duration` and
`amount` (and the count) over exactly `listForRange(periodStart, periodEnd)`
at generation time, the invoice row is persisted, and later entry updates or
deletes never touch the invoice table — every existing Invoice row is
unchanged. -/
theorem invoice_snapshot_frozen (s : AppState) (a b : Int) (bi cp : String)
    (now : Int) (fp : String) (inv : Invoice) (s' : AppState)
    (hok : s.saveInvoice a b bi cp now fp = (Except.ok inv, s')) :
    inv.totalAmount = ((s.store.listForRange a b).map (fun e => e.amount)).sum ∧
    inv.totalHours =
      ((((s.store.listForRange a b).map (fun e => e.duration)).sum : Int) : ℚ) / 3600 ∧
    inv.entryCount = (s.store.listForRange a b).length ∧
    inv ∈ s'.invoices ∧
    (∀ (id : Int) (name : String) (rate : ℚ) (d : Int),
      ((s'.updateTimeEntry id name rate d).2).invoices = s'.invoices) ∧
    (∀ id : Int, ((s'.deleteTimeEntry id).2).invoices = s'.invoices) := by
  unfold AppState.saveInvoice at hok
  by_cases h1 : b < a
  · simp [h1] at hok
  · simp only [h1, if_false, Prod.mk.injEq, Except.ok.injEq] at hok
    obtain ⟨hinv, hs'⟩ := hok
    subst hinv
    refine ⟨rfl, rfl, rfl, ?_, ?_, ?_⟩
    · rw [← hs']
      simp
    · intro id name rate d
      simp [AppState.updateTimeEntry]
    · intro id
      simp [AppState.deleteTimeEntry]

/-- Witness for C5 (spec §8 scenario): generating over `[0, 86400)` from
`app0` (two entries totalling 7200 s at 50/h) yields `c5inv` whose totals
are exactly the `listForRange` sums, and subsequent entry edits and deletes
leave the invoice table of `c5state` unchanged. -/
theorem invoice_snapshot_frozen_witness :
    c5inv.totalAmount = ((app0.store.listForRange 0 86400).map (fun e => e.amount)).sum ∧
    c5inv ∈ c5state.invoices ∧
    ((c5state.updateTimeEntry 1 "Alpha" 50 60).2).invoices = c5state.invoices ∧
    ((c5state.deleteTimeEntry 1).2).invoices = c5state.invoices :=
  have h := invoice_snapshot_frozen app0 0 86400 "biz" "client" 1000 "inv.pdf"
    c5inv c5state (by rfl)
  ⟨h.1, h.2.2.2.1, h.2.2.2.2.1 1 "Alpha" 50 60, h.2.2.2.2.2 1⟩
